import Mathlib

/-
  Verification of the clue-sheet mark-state engine.

  Shallow embedding of:
  - the Mark Model (src/domain/cell-marks.ts): `CellMark`, `createMark`,
    `withPrimary`, `withToggledNumber`, `withToggledBarColor`, `withoutNumber`,
    `withoutAllNumbers`, `isEmptyMark`;
  - the Grid Store (src/ui/hooks/useCellMarks.ts): a sparse map from
    (cardId, playerId) to CellMark, with `getCellMark`, `setCellMark`,
    `batchSetMarks`, `removeNumberFromColumn`, `findNumberInColumn`, `setPrimary`;
  - the Rule/Cascade Engine (src/ui/Sheet.tsx): `applyRowElimination`,
    `applyLastMaybeDeduction`, `handleMarkHas`, `handleMarkNot`,
    `applyMarksForCards`;
  - the Constraint Resolver (src/domain/config.ts): `isConstraintRequired`.

  JavaScript `Set` values are embedded as duplicate-free `List Nat` values in
  insertion order (`add` appends when absent, `delete` removes), and
  JavaScript `Map` values as association lists in insertion order
  (`set` replaces in place or appends, `delete` filters the key out).

  The React event handlers read the grid through closures over the state value
  of the current render (a snapshot) while their writes are queued functional
  updates applied in dispatch order.  The handler embeddings therefore thread
  two grids: `snap`, the render-time snapshot every `getCellMark` /
  `findNumberInColumn` call reads, and the committed grid the queued writes
  fold over.
-/

namespace ClueSheet

/-- Primary marker types, mutually exclusive (src/domain/cell-marks.ts
`PrimaryMark = "empty" | "has" | "not" | "bars"`). -/
inductive PrimaryMark where
  | empty
  | has
  | not
  | bars
deriving DecidableEq, Repr

/-- A cell mark: primary state, number markers (automation-aware "maybe"
markers, keys 1-4) and bar colors (manual-only helpers, keys 1-4).  The two
key sets are embedded as insertion-ordered duplicate-free lists. -/
structure CellMark where
  primary : PrimaryMark
  numbers : List Nat
  barColors : List Nat
deriving DecidableEq, Repr

/-- Default empty cell mark (src/domain/cell-marks.ts `EMPTY_MARK`). -/
def EMPTY_MARK : CellMark := ⟨.empty, [], []⟩

/-- Check if a mark is effectively empty: `mark.primary === "empty" &&
mark.numbers.size === 0` (bar colors are not consulted). -/
def isEmptyMark : CellMark → Bool
  | ⟨.empty, [], _⟩ => true
  | _ => false

/-- Create a mark with the normalization of src/domain/cell-marks.ts
`createMark`: the all-empty combination collapses to `EMPTY_MARK`, and bar
colors are kept only when the primary is `bars`. -/
def createMark (primary : PrimaryMark) (numbers barColors : List Nat) : CellMark :=
  if primary = .empty ∧ numbers = [] then EMPTY_MARK
  else ⟨primary, numbers, if primary = .bars then barColors else []⟩

/-- Set the primary marker, preserving numbers (`withPrimary`). -/
def withPrimary (mark : CellMark) (primary : PrimaryMark) : CellMark :=
  createMark primary mark.numbers mark.barColors

/-- Toggle a number marker (`withToggledNumber`): delete when present,
append when absent, then renormalize through `createMark`. -/
def withToggledNumber (mark : CellMark) (num : Nat) : CellMark :=
  let newNumbers := if num ∈ mark.numbers then mark.numbers.erase num
                    else mark.numbers ++ [num]
  createMark mark.primary newNumbers mark.barColors

/-- Toggle a bar color (`withToggledBarColor`): when the last color is
toggled off the primary reverts to `empty` while preserving numbers,
otherwise the primary becomes `bars` with the new color set. -/
def withToggledBarColor (mark : CellMark) (color : Nat) : CellMark :=
  let newColors := if color ∈ mark.barColors then mark.barColors.erase color
                   else mark.barColors ++ [color]
  if newColors = [] then createMark .empty mark.numbers []
  else createMark .bars mark.numbers newColors

/-- Remove a specific number from a mark (`withoutNumber`); returns the mark
unchanged when the number is absent. -/
def withoutNumber (mark : CellMark) (num : Nat) : CellMark :=
  if num ∈ mark.numbers then createMark mark.primary (mark.numbers.erase num) mark.barColors
  else mark

/-- Remove all numbers from a mark (`withoutAllNumbers`); returns the mark
unchanged when there are none. -/
def withoutAllNumbers (mark : CellMark) : CellMark :=
  if mark.numbers = [] then mark
  else createMark mark.primary [] mark.barColors

/-- Cell identity: the (cardId, playerId) pair behind the string key
`${cardId}-${playerId}` of src/ui/hooks/useCellMarks.ts (the key round-trips
through `makeKey`/`parseKey`). -/
abbrev Cell := Nat × Nat

/-- The sparse grid: a `Map<CellKey, CellMark>` embedded as an association
list in insertion order. -/
abbrev Grid := List (Cell × CellMark)

/-- `Map.get`: first (unique) entry with the key. -/
def mapLookup : Grid → Cell → Option CellMark
  | [], _ => none
  | (k, m) :: rest, key => if k = key then some m else mapLookup rest key

/-- `Map.set`: replace the entry in place when the key is present, append
otherwise. -/
def mapSet : Grid → Cell → CellMark → Grid
  | [], key, m => [(key, m)]
  | (k, m') :: rest, key, m =>
      if k = key then (key, m) :: rest else (k, m') :: mapSet rest key m

/-- `Map.delete`: drop the entry with the key. -/
def mapDelete (g : Grid) (key : Cell) : Grid :=
  g.filter (fun e => decide (e.1 ≠ key))

/-- Point read, defaulting to the canonical empty mark (`getCellMark`). -/
def getCellMark (g : Grid) (cardId playerId : Nat) : CellMark :=
  (mapLookup g (cardId, playerId)).getD EMPTY_MARK

/-- Point write (`setCellMark`): a canonical-empty value removes the entry. -/
def setCellMark (g : Grid) (cardId playerId : Nat) (mark : CellMark) : Grid :=
  if isEmptyMark mark then mapDelete g (cardId, playerId)
  else mapSet g (cardId, playerId) mark

/-- One batch update entry: cardId, playerId, mark. -/
abbrev Update := Nat × Nat × CellMark

/-- Batch write (`batchSetMarks`): apply the point-write rule to each update
in order. -/
def batchSetMarks (g : Grid) (updates : List Update) : Grid :=
  updates.foldl (fun acc u => setCellMark acc u.1 u.2.1 u.2.2) g

/-- Remove a number from every cell of a column (`removeNumberFromColumn`),
deleting entries that become canonically empty. -/
def removeNumberFromColumn (g : Grid) (playerId num : Nat) : Grid :=
  g.filterMap (fun e =>
    if e.1.2 = playerId ∧ num ∈ e.2.numbers then
      (let newMark := withoutNumber e.2 num
       if isEmptyMark newMark then none else some (e.1, newMark))
    else some e)

/-- All cardIds of a column whose mark carries the number
(`findNumberInColumn`), in map insertion order. -/
def findNumberInColumn (g : Grid) (playerId num : Nat) : List Nat :=
  g.filterMap (fun e =>
    if e.1.2 = playerId ∧ num ∈ e.2.numbers then some e.1.1 else none)

/-- Set the primary of one cell, preserving its numbers (`setPrimary`). -/
def setPrimary (g : Grid) (cardId playerId : Nat) (primary : PrimaryMark) : Grid :=
  setCellMark g cardId playerId (withPrimary (getCellMark g cardId playerId) primary)

/-- The six player columns (`PLAYER_COL_COUNT = 6`, loop
`for playerId = 1..6` in src/ui/Sheet.tsx). -/
def PLAYER_IDS : List Nat := [1, 2, 3, 4, 5, 6]

/-- Toggleable auto-rule identifiers.  Modelled from the spec: the snapshot's
src/domain/config.ts is an earlier revision listing only `rowElimination`,
while the current `AutoRulesSchema` (src/domain/configSchema.ts) and
`handleMarkNot` (src/ui/Sheet.tsx) also use `lastMaybeDeduction`; the
two-flag shape is the one the rest of the current code requires. -/
inductive AutoRuleId where
  | rowElimination
  | lastMaybeDeduction
deriving DecidableEq, Repr

/-- Auto-rule configuration: the two independently toggleable booleans.
Modelled from the spec for the `lastMaybeDeduction` field (see `AutoRuleId`). -/
structure AutoRulesConfig where
  rowElimination : Bool
  lastMaybeDeduction : Bool
deriving DecidableEq, Repr

/-- Default auto-rule configuration.  `rowElimination := false` is
src/domain/config.ts `DEFAULT_AUTO_RULES`; `lastMaybeDeduction := false` is
modelled from the spec (each rule default-off), its defining revision being
absent from the snapshot. -/
def DEFAULT_AUTO_RULES : AutoRulesConfig := ⟨false, false⟩

/-- Constraint identifiers (src/domain/config.ts `ConstraintId`). -/
inductive ConstraintId where
  | numbersOnlyOnEmptyOrBars
  | numberToggleRemovesFromColumn
deriving DecidableEq, Repr

/-- Constraint-to-rule dependency table (src/domain/config.ts
`CONSTRAINT_DEPENDENCIES`): both lists are currently empty. -/
def CONSTRAINT_DEPENDENCIES : ConstraintId → List AutoRuleId
  | .numbersOnlyOnEmptyOrBars => []
  | .numberToggleRemovesFromColumn => []

/-- Read one rule flag out of a configuration (the lookup `autoRules[ruleId]`). -/
def ruleEnabled (autoRules : AutoRulesConfig) : AutoRuleId → Bool
  | .rowElimination => autoRules.rowElimination
  | .lastMaybeDeduction => autoRules.lastMaybeDeduction

/-- src/domain/config.ts `isConstraintRequired`: false when the dependency
list is empty, otherwise true iff some listed rule is enabled. -/
def isConstraintRequired (constraintId : ConstraintId) (autoRules : AutoRulesConfig) : Bool :=
  let dependentRules := CONSTRAINT_DEPENDENCIES constraintId
  if dependentRules.length = 0 then false
  else dependentRules.any (ruleEnabled autoRules)

/-- The update `applyRowElimination` computes for one other player column:
skip the trigger column, skip settled `not`/`has` cells, otherwise set the
primary to `not` via `withPrimary`.  Reads the render snapshot `snap`. -/
def rowElimMark (snap : Grid) (cardId hasPlayerId playerId : Nat) : Option CellMark :=
  if playerId = hasPlayerId then none
  else
    let currentMark := getCellMark snap cardId playerId
    if currentMark.primary = .not ∨ currentMark.primary = .has then none
    else some (withPrimary currentMark .not)

/-- src/ui/Sheet.tsx `applyRowElimination`: collect the row updates from the
snapshot and batch-apply them to the committed grid (the code only calls
`batchSetMarks` when the update list is non-empty). -/
def applyRowElimination (snap committed : Grid) (cardId hasPlayerId : Nat) : Grid :=
  let updates : List Update :=
    PLAYER_IDS.filterMap (fun playerId =>
      (rowElimMark snap cardId hasPlayerId playerId).map (fun m => (cardId, playerId, m)))
  if updates.isEmpty then committed else batchSetMarks committed updates

/-- src/ui/Sheet.tsx `applyLastMaybeDeduction`: for each number on the
trigger cell, look at the column cells carrying that number; abandon the
number when one already reads `has`; otherwise, when exactly one candidate
(primary not `not`) remains, mark it `has` and, when `rowElimination` is
enabled, run row elimination for the newly resolved cell.  Every read goes
through the render snapshot `snap`; writes accumulate on the committed grid. -/
def applyLastMaybeDeduction (rowElim : Bool) (snap committed : Grid)
    (cardId playerId : Nat) : Grid :=
  let mark := getCellMark snap cardId playerId
  if mark.numbers = [] then committed
  else
    mark.numbers.foldl (fun acc num =>
      let cellsWithNumber := findNumberInColumn snap playerId num
      let hasHasCell := cellsWithNumber.any (fun cid =>
        decide ((getCellMark snap cid playerId).primary = .has))
      if hasHasCell then acc
      else
        let candidateCells := cellsWithNumber.filter (fun cid =>
          decide ((getCellMark snap cid playerId).primary ≠ .not))
        match candidateCells with
        | [targetCardId] =>
            let targetMark := getCellMark snap targetCardId playerId
            let acc2 := batchSetMarks acc [(targetCardId, playerId, withPrimary targetMark .has)]
            if rowElim then applyRowElimination snap acc2 targetCardId playerId else acc2
        | _ => acc) committed

/-- src/ui/Sheet.tsx `handleMarkHas`: set the cell's primary to `has`, then,
when `rowElimination` is enabled, run row elimination reading the render
snapshot `g`. -/
def handleMarkHas (autoRules : AutoRulesConfig) (g : Grid) (cardId playerId : Nat) : Grid :=
  let committed := setPrimary g cardId playerId .has
  if autoRules.rowElimination then applyRowElimination g committed cardId playerId
  else committed

/-- src/ui/Sheet.tsx `handleMarkNot`: set the cell's primary to `not`, then,
when `lastMaybeDeduction` is enabled, run the deduction reading the render
snapshot `g`. -/
def handleMarkNot (autoRules : AutoRulesConfig) (g : Grid) (cardId playerId : Nat) : Grid :=
  let committed := setPrimary g cardId playerId .not
  if autoRules.lastMaybeDeduction then
    applyLastMaybeDeduction autoRules.rowElimination g committed cardId playerId
  else committed

/-- The mark `applyMarksForCards` writes into a confirmed card's row for one
player column: owner cards give P1 `has` and every other column `not`;
public cards give every column `not`.  Fresh `createMark` calls, so numbers
and bar colors are cleared. -/
def rowMark (isOwner : Bool) (playerId : Nat) : CellMark :=
  if isOwner then createMark (if playerId = 1 then .has else .not) [] []
  else createMark .not [] []

/-- src/ui/Sheet.tsx `applyMarksForCards`: the confirmed rows get `rowMark`
in every column; for owner confirmation every remaining non-owner,
non-public card additionally gets `not` in the owner's (player 1's) column.
`allCardIds` embeds `getCards(themeId)` (21 card ids), `publicCards` the
previously confirmed public list.  The code only calls `batchSetMarks` when
the update list is non-empty. -/
def applyMarksForCards (allCardIds publicCards : List Nat) (g : Grid)
    (cards : List Nat) (isOwner : Bool) : Grid :=
  let rowUpdates : List Update := cards.flatMap (fun cardId =>
    PLAYER_IDS.map (fun playerId => (cardId, playerId, rowMark isOwner playerId)))
  let ownerColumnUpdates : List Update :=
    if isOwner then
      (allCardIds.filter (fun cid => decide (cid ∉ cards ∧ cid ∉ publicCards))).map
        (fun cid => (cid, 1, createMark .not [] []))
    else []
  let updates := rowUpdates ++ ownerColumnUpdates
  if updates.isEmpty then g else batchSetMarks g updates

/-- The card ids of both theme catalogs (src/domain/themes.ts: each theme
lists cards with ids 1..21). -/
def ALL_CARD_IDS : List Nat :=
  [1, 2, 3, 4, 5, 6, 7, 8, 9, 10, 11, 12, 13, 14, 15, 16, 17, 18, 19, 20, 21]

/-- Modelled from the spec: the SheetGrid revision paired with the current
Sheet (which passes no auto-rules to the grid view) is absent from the
snapshot; the two revisions present in src/ui/SheetGrid.tsx bracket it — one
computes `!isRowLocked && cols.every(primary === "not")` with only public
cards locked, the other the same with `isRowLocked = isPublicCard ||
isOwnerCard` but additionally gated on the retired `murderDetection` flag.
Following the spec's always-on murder detection: a card is a murder item iff
it is not a locked public or owner card and every player column reads `not`.
Recomputed from the grid on each call, never stored. -/
def isMurderItem (publicCards ownerCards : List Nat) (g : Grid) (cardId : Nat) : Bool :=
  !(decide (cardId ∈ publicCards) || decide (cardId ∈ ownerCards)) &&
    PLAYER_IDS.all (fun playerId => decide ((getCellMark g cardId playerId).primary = .not))

/-- The Grid Store operations of the lifecycle the invariants are stated
over: point write, batch write, column number-removal, reset
(src/ui/hooks/useCellMarks.ts; every other mutator funnels into
`setCellMark`). -/
inductive GridOp where
  | setMark (cardId playerId : Nat) (mark : CellMark)
  | batch (updates : List Update)
  | removeNumCol (playerId num : Nat)
  | reset
deriving Repr

/-- Interpret one Grid Store operation. -/
def applyGridOp (g : Grid) : GridOp → Grid
  | .setMark cardId playerId mark => setCellMark g cardId playerId mark
  | .batch updates => batchSetMarks g updates
  | .removeNumCol playerId num => removeNumberFromColumn g playerId num
  | .reset => []

/-- Run a sequence of Grid Store operations from the initial empty grid. -/
def runOps (ops : List GridOp) : Grid :=
  ops.foldl applyGridOp []

/-- Marks producible by the Mark Model's constructors and derivation
operations (closure of `createMark` under the five deriving operations). -/
inductive ProducedMark : CellMark → Prop where
  | create (p : PrimaryMark) (ns bs : List Nat) : ProducedMark (createMark p ns bs)
  | primaryStep (m : CellMark) (p : PrimaryMark) :
      ProducedMark m → ProducedMark (withPrimary m p)
  | toggleNumberStep (m : CellMark) (n : Nat) :
      ProducedMark m → ProducedMark (withToggledNumber m n)
  | toggleBarStep (m : CellMark) (c : Nat) :
      ProducedMark m → ProducedMark (withToggledBarColor m c)
  | removeNumberStep (m : CellMark) (n : Nat) :
      ProducedMark m → ProducedMark (withoutNumber m n)
  | removeAllStep (m : CellMark) :
      ProducedMark m → ProducedMark (withoutAllNumbers m)

/-! ### Basic lemmas about the Mark Model -/

theorem createMark_primary (p : PrimaryMark) (ns bs : List Nat) :
    (createMark p ns bs).primary = p := by
  unfold createMark
  split
  · rename_i h
    rw [h.1]
    rfl
  · rfl

theorem createMark_numbers (p : PrimaryMark) (ns bs : List Nat) :
    (createMark p ns bs).numbers = ns := by
  unfold createMark
  split
  · rename_i h
    rw [h.2]
    rfl
  · rfl

theorem createMark_barColors_of_ne_bars (p : PrimaryMark) (ns bs : List Nat)
    (h : p ≠ .bars) : (createMark p ns bs).barColors = [] := by
  unfold createMark
  split
  · rfl
  · simp [h]

theorem createMark_eq_of_ne (p : PrimaryMark) (ns bs : List Nat)
    (hp : p ≠ .empty) (hb : p ≠ .bars) :
    createMark p ns bs = ⟨p, ns, []⟩ := by
  unfold createMark
  simp [hp, hb]

theorem isEmptyMark_eq_true_iff (m : CellMark) :
    isEmptyMark m = true ↔ (m.primary = .empty ∧ m.numbers = []) := by
  obtain ⟨p, ns, bs⟩ := m
  cases p <;> cases ns <;> simp [isEmptyMark]

theorem isEmptyMark_withPrimary_not (m : CellMark) :
    isEmptyMark (withPrimary m .not) = false := by
  have h := isEmptyMark_eq_true_iff (withPrimary m .not)
  cases hb : isEmptyMark (withPrimary m .not)
  · rfl
  · exfalso
    have := (h.mp hb).1
    rw [withPrimary, createMark_primary] at this
    exact PrimaryMark.noConfusion this

theorem isEmptyMark_withPrimary_has (m : CellMark) :
    isEmptyMark (withPrimary m .has) = false := by
  have h := isEmptyMark_eq_true_iff (withPrimary m .has)
  cases hb : isEmptyMark (withPrimary m .has)
  · rfl
  · exfalso
    have := (h.mp hb).1
    rw [withPrimary, createMark_primary] at this
    exact PrimaryMark.noConfusion this

/-! ### Basic lemmas about the Grid Store -/

theorem mapLookup_mapSet_self (g : Grid) (k : Cell) (m : CellMark) :
    mapLookup (mapSet g k m) k = some m := by
  induction g with
  | nil => simp [mapSet, mapLookup]
  | cons e rest ih =>
      obtain ⟨k', m'⟩ := e
      by_cases h : k' = k
      · simp [mapSet, h, mapLookup]
      · simp [mapSet, h, mapLookup, ih]

theorem mapLookup_mapSet_ne (g : Grid) (k key : Cell) (m : CellMark)
    (h : key ≠ k) : mapLookup (mapSet g k m) key = mapLookup g key := by
  induction g with
  | nil => simp [mapSet, mapLookup, h, Ne.symm h]
  | cons e rest ih =>
      obtain ⟨k', m'⟩ := e
      by_cases hk : k' = k
      · subst hk
        simp [mapSet, mapLookup, h, Ne.symm h]
      · simp only [mapSet, if_neg hk, mapLookup]
        by_cases hk2 : k' = key
        · simp [hk2]
        · simp [hk2, ih]

theorem mapDelete_cons (e : Cell × CellMark) (rest : Grid) (k : Cell) :
    mapDelete (e :: rest) k =
      if e.1 = k then mapDelete rest k else e :: mapDelete rest k := by
  by_cases h : e.1 = k <;> simp [mapDelete, List.filter_cons, h]

theorem mapLookup_mapDelete_self (g : Grid) (k : Cell) :
    mapLookup (mapDelete g k) k = none := by
  induction g with
  | nil => rfl
  | cons e rest ih =>
      rw [mapDelete_cons]
      by_cases h : e.1 = k
      · rw [if_pos h]
        exact ih
      · rw [if_neg h]
        obtain ⟨k', m'⟩ := e
        simp only [mapLookup]
        rw [if_neg h]
        exact ih

theorem mapLookup_mapDelete_ne (g : Grid) (k key : Cell) (h : key ≠ k) :
    mapLookup (mapDelete g k) key = mapLookup g key := by
  induction g with
  | nil => rfl
  | cons e rest ih =>
      rw [mapDelete_cons]
      by_cases hk : e.1 = k
      · obtain ⟨k', m'⟩ := e
        simp only at hk
        subst hk
        rw [if_pos rfl]
        simp only [mapLookup]
        rw [if_neg (Ne.symm h)]
        exact ih
      · rw [if_neg hk]
        obtain ⟨k', m'⟩ := e
        simp only [mapLookup]
        by_cases hk2 : k' = key
        · rw [if_pos hk2, if_pos hk2]
        · rw [if_neg hk2, if_neg hk2]
          exact ih

theorem getCellMark_setCellMark_self (g : Grid) (c p : Nat) (m : CellMark) :
    getCellMark (setCellMark g c p m) c p =
      if isEmptyMark m then EMPTY_MARK else m := by
  unfold setCellMark getCellMark
  cases h : isEmptyMark m
  · simp only [Bool.false_eq_true, if_false]
    rw [mapLookup_mapSet_self]
    rfl
  · simp only [if_true]
    rw [mapLookup_mapDelete_self]
    rfl

theorem getCellMark_setCellMark_ne (g : Grid) (c p c' p' : Nat) (m : CellMark)
    (h : (c', p') ≠ (c, p)) :
    getCellMark (setCellMark g c p m) c' p' = getCellMark g c' p' := by
  unfold setCellMark getCellMark
  cases hm : isEmptyMark m
  · simp only [Bool.false_eq_true, if_false]
    rw [mapLookup_mapSet_ne _ _ _ _ h]
  · simp only [if_true]
    rw [mapLookup_mapDelete_ne _ _ _ h]

/-! ### The last write of a batch decides the resulting read -/

/-- The last update of a batch aimed at the cell (cardId, playerId), if any. -/
def lastWrite : List Update → Nat → Nat → Option CellMark
  | [], _, _ => none
  | u :: us, c, p =>
      match lastWrite us c p with
      | some m => some m
      | none => if u.1 = c ∧ u.2.1 = p then some u.2.2 else none

theorem getCellMark_batchSetMarks (us : List Update) (g : Grid) (c p : Nat) :
    getCellMark (batchSetMarks g us) c p =
      match lastWrite us c p with
      | some m => if isEmptyMark m then EMPTY_MARK else m
      | none => getCellMark g c p := by
  induction us generalizing g with
  | nil => rfl
  | cons u us ih =>
      show getCellMark (batchSetMarks (setCellMark g u.1 u.2.1 u.2.2) us) c p = _
      rw [ih]
      cases h : lastWrite us c p with
      | some m => simp only [lastWrite, h]
      | none =>
          simp only [lastWrite, h]
          by_cases hk : u.1 = c ∧ u.2.1 = p
          · rw [if_pos hk]
            obtain ⟨h1, h2⟩ := hk
            subst h1
            subst h2
            exact getCellMark_setCellMark_self g u.1 u.2.1 u.2.2
          · rw [if_neg hk]
            apply getCellMark_setCellMark_ne
            intro hcp
            apply hk
            rw [Prod.mk.injEq] at hcp
            exact ⟨hcp.1.symm, hcp.2.symm⟩

theorem lastWrite_append (us1 us2 : List Update) (c p : Nat) :
    lastWrite (us1 ++ us2) c p =
      match lastWrite us2 c p with
      | some m => some m
      | none => lastWrite us1 c p := by
  induction us1 with
  | nil =>
      cases h : lastWrite us2 c p <;> simp [lastWrite, h]
  | cons u us ih =>
      show lastWrite (u :: (us ++ us2)) c p = _
      simp only [lastWrite, ih]
      cases h : lastWrite us2 c p <;> cases h2 : lastWrite us c p <;> simp [lastWrite]

/-- Reading a cell after a batch of row updates generated by `filterMap` over
player columns: the columns determine the keys, so the read is the generating
function's value at the queried column (when the queried card matches). -/
theorem lastWrite_filterMap_players (cardId : Nat) (f : Nat → Option CellMark)
    (l : List Nat) (c q : Nat) :
    lastWrite (l.filterMap (fun p => (f p).map (fun m => (cardId, p, m)))) c q =
      if c = cardId ∧ q ∈ l then f q else none := by
  induction l with
  | nil => simp [lastWrite]
  | cons a l ih =>
      rw [List.filterMap_cons]
      cases ha : f a with
      | none =>
          simp only [Option.map_none']
          rw [ih]
          by_cases hc : c = cardId
          · subst hc
            by_cases hq : q ∈ l
            · simp [hq]
            · by_cases hqa : q = a
              · subst hqa
                simp [hq, ha]
              · simp [hq, hqa]
          · simp [hc]
      | some m =>
          simp only [Option.map_some']
          show lastWrite ((cardId, a, m) :: _) c q = _
          simp only [lastWrite]
          rw [ih]
          by_cases hc : c = cardId
          · subst hc
            by_cases hq : q ∈ l
            · cases hfq : f q with
              | some m2 => simp [hq, hfq]
              | none =>
                  have hqa : ¬(a = q) := by
                    intro hqa
                    subst hqa
                    rw [ha] at hfq
                    exact Option.noConfusion hfq
                  simp [hq, hfq, hqa]
            · by_cases hqa : a = q
              · subst hqa
                simp [hq, ha]
              · have hqa2 : ¬(q = a) := fun h => hqa h.symm
                simp [hq, hqa, hqa2]
          · simp [hc, Ne.symm hc]

theorem if_isEmpty_batch (g : Grid) (us : List Update) :
    (if us.isEmpty then g else batchSetMarks g us) = batchSetMarks g us := by
  cases us <;> simp [batchSetMarks]

/-- Reading a cell after the batch generated by mapping a per-column mark
over a list of player columns of one card's row. -/
theorem lastWrite_map_players (cardId : Nat) (mk : Nat → CellMark)
    (l : List Nat) (c q : Nat) :
    lastWrite (l.map (fun p => (cardId, p, mk p))) c q =
      if c = cardId ∧ q ∈ l then some (mk q) else none := by
  induction l with
  | nil => simp [lastWrite]
  | cons a l ih =>
      rw [List.map_cons]
      show lastWrite ((cardId, a, mk a) :: _) c q = _
      simp only [lastWrite]
      rw [ih]
      by_cases hc : c = cardId
      · subst hc
        by_cases hq : q ∈ l
        · simp [hq]
        · by_cases hqa : a = q
          · subst hqa
            simp [hq]
          · have hqa2 : ¬(q = a) := fun h => hqa h.symm
            simp [hq, hqa, hqa2]
      · simp [hc, Ne.symm hc]

/-- Reading a cell after the batch generated by mapping a per-card mark over
a list of cards in one player's column. -/
theorem lastWrite_map_cards (playerId : Nat) (mk : Nat → CellMark)
    (l : List Nat) (c q : Nat) :
    lastWrite (l.map (fun cid => (cid, playerId, mk cid))) c q =
      if c ∈ l ∧ q = playerId then some (mk c) else none := by
  induction l with
  | nil => simp [lastWrite]
  | cons a l ih =>
      rw [List.map_cons]
      show lastWrite ((a, playerId, mk a) :: _) c q = _
      simp only [lastWrite]
      rw [ih]
      by_cases hq : q = playerId
      · subst hq
        by_cases hcl : c ∈ l
        · simp [hcl]
        · by_cases hca : a = c
          · subst hca
            simp [hcl]
          · have hca2 : ¬(c = a) := fun h => hca h.symm
            simp [hcl, hca, hca2]
      · have hq2 : ¬(playerId = q) := fun h => hq h.symm
        simp [hq, hq2]

/-- Reading a cell after the row updates `applyMarksForCards` builds for the
confirmed cards: one `rowMark` per player column of each confirmed card. -/
theorem lastWrite_flatMap_rows (mk : Nat → CellMark) (cards : List Nat) (c q : Nat) :
    lastWrite (cards.flatMap (fun cid =>
        PLAYER_IDS.map (fun p => (cid, p, mk p)))) c q =
      if c ∈ cards ∧ q ∈ PLAYER_IDS then some (mk q) else none := by
  induction cards with
  | nil => simp [lastWrite]
  | cons a cards ih =>
      rw [List.flatMap_cons, lastWrite_append, ih, lastWrite_map_players]
      by_cases hc : c ∈ cards
      · by_cases hq : q ∈ PLAYER_IDS
        · simp [hc, hq]
        · simp [hc, hq]
      · by_cases hca : c = a
        · subst hca
          by_cases hq : q ∈ PLAYER_IDS <;> simp [hc, hq]
        · simp [hc, hca]

/-! ### C1: row elimination -/

/-- The grid used by the C1 counterexample: the single stored cell
(card 1, player 3) is a bars mark with bar color 1. -/
def c1Grid : Grid := setCellMark [] 1 3 (createMark .bars [] [1])

/-- C1 counterexample: with `rowElimination` enabled, marking (card 1,
player 2) as `has` rewrites the bars cell (card 1, player 3) to primary
`not` with its bar-color set cleared — the claim's "preserving that cell's
own numbers and bar-colors" fails for bar-colors. -/
theorem rowElimination_clears_barColors :
    (getCellMark c1Grid 1 3).barColors = [1] ∧
    (getCellMark (handleMarkHas ⟨true, false⟩ c1Grid 1 2) 1 3).primary = .not ∧
    (getCellMark (handleMarkHas ⟨true, false⟩ c1Grid 1 2) 1 3).barColors = [] := by
  decide

/-- C1 (amended): for every grid with `rowElimination` enabled, marking
(card c, player p) as `has` leaves every other column q of row c unchanged
when it already reads `has` or `not`, and otherwise sets its primary to
`not`, preserving its numbers while clearing its bar-colors (normalization
empties the bar-color set of any non-bars primary); the trigger cell reads
`has` afterwards. -/
theorem handleMarkHas_rowElimination_marks (b : Bool) (g : Grid) (c p q : Nat)
    (hq : q ∈ PLAYER_IDS) (hqp : q ≠ p) :
    ((getCellMark (handleMarkHas ⟨true, b⟩ g c p) c p).primary = .has) ∧
    ((getCellMark g c q).primary = .has ∨ (getCellMark g c q).primary = .not →
       getCellMark (handleMarkHas ⟨true, b⟩ g c p) c q = getCellMark g c q) ∧
    (¬((getCellMark g c q).primary = .has ∨ (getCellMark g c q).primary = .not) →
       getCellMark (handleMarkHas ⟨true, b⟩ g c p) c q =
         ⟨.not, (getCellMark g c q).numbers, []⟩) := by
  have hrun : handleMarkHas ⟨true, b⟩ g c p =
      batchSetMarks (setPrimary g c p .has)
        (PLAYER_IDS.filterMap (fun pid =>
          (rowElimMark g c p pid).map (fun m => (c, pid, m)))) := by
    show applyRowElimination g (setPrimary g c p .has) c p = _
    unfold applyRowElimination
    exact if_isEmpty_batch _ _
  have hne : ((c, q) : Cell) ≠ (c, p) := by
    intro h
    exact hqp (congrArg Prod.snd h)
  refine ⟨?_, ?_, ?_⟩
  · rw [hrun, getCellMark_batchSetMarks, lastWrite_filterMap_players]
    have hself : rowElimMark g c p p = none := by
      unfold rowElimMark
      rw [if_pos rfl]
    simp only [hself, ite_self]
    rw [setPrimary, getCellMark_setCellMark_self, isEmptyMark_withPrimary_has]
    simp only [Bool.false_eq_true, if_false]
    rw [withPrimary, createMark_primary]
  · intro hsettled
    rw [hrun, getCellMark_batchSetMarks, lastWrite_filterMap_players]
    have hskip : rowElimMark g c p q = none := by
      unfold rowElimMark
      rw [if_neg hqp]
      simp only
      rw [if_pos (Or.elim hsettled Or.inr Or.inl)]
    simp only [hskip, ite_self]
    rw [setPrimary, getCellMark_setCellMark_ne _ _ _ _ _ _ hne]
  · intro hunsettled
    rw [hrun, getCellMark_batchSetMarks, lastWrite_filterMap_players]
    have hwrite : rowElimMark g c p q =
        some (withPrimary (getCellMark g c q) .not) := by
      unfold rowElimMark
      rw [if_neg hqp]
      simp only
      rw [if_neg (fun h => hunsettled (Or.elim h Or.inr Or.inl))]
    rw [if_pos ⟨rfl, hq⟩, hwrite]
    simp only [isEmptyMark_withPrimary_not, Bool.false_eq_true, if_false]
    rw [withPrimary, createMark_eq_of_ne]
    · exact fun h => PrimaryMark.noConfusion h
    · exact fun h => PrimaryMark.noConfusion h

/-- C1 witness: the amended theorem applied at the counterexample grid with
trigger (card 1, player 2) and observed column 3 (a bars cell, so the
unsettled branch fires and clears the bar-colors). -/
theorem handleMarkHas_rowElimination_marks_witness :
    (3 ∈ PLAYER_IDS ∧ (3 : Nat) ≠ 2) ∧
    (((getCellMark (handleMarkHas ⟨true, false⟩ c1Grid 1 2) 1 2).primary = .has) ∧
    ((getCellMark c1Grid 1 3).primary = .has ∨ (getCellMark c1Grid 1 3).primary = .not →
       getCellMark (handleMarkHas ⟨true, false⟩ c1Grid 1 2) 1 3 = getCellMark c1Grid 1 3) ∧
    (¬((getCellMark c1Grid 1 3).primary = .has ∨ (getCellMark c1Grid 1 3).primary = .not) →
       getCellMark (handleMarkHas ⟨true, false⟩ c1Grid 1 2) 1 3 =
         ⟨.not, (getCellMark c1Grid 1 3).numbers, []⟩)) :=
  ⟨by decide, handleMarkHas_rowElimination_marks false c1Grid 1 2 3 (by decide) (by decide)⟩

/-! ### C2: last-maybe deduction reads the stale render snapshot -/

/-- The grid of the spec's last-maybe scenario: cards 1, 2, 3 of player 3's
column all carry number marker 2 (primary `empty`). -/
def c2Grid : Grid :=
  batchSetMarks []
    [(1, 3, createMark .empty [2] []),
     (2, 3, createMark .empty [2] []),
     (3, 3, createMark .empty [2] [])]

/-- C2 evaluation at the spec's own scenario: with `lastMaybeDeduction`
enabled, marking card 1 `not` and then card 2 `not` (both still carrying
marker 2) leaves card 3 at primary `empty` — it is never auto-set to `has`,
because `applyLastMaybeDeduction` reads the grid through the render
snapshot, in which the just-marked trigger cell does not yet read `not` and
therefore still counts as a candidate (two candidates remain, so no
deduction fires). -/
theorem lastMaybeDeduction_stale_candidates :
    (getCellMark (handleMarkNot ⟨false, true⟩ c2Grid 1 3) 1 3).primary = .not ∧
    (getCellMark (handleMarkNot ⟨false, true⟩ c2Grid 1 3) 1 3).numbers = [2] ∧
    (getCellMark (handleMarkNot ⟨false, true⟩ (handleMarkNot ⟨false, true⟩ c2Grid 1 3) 2 3)
        2 3).primary = .not ∧
    (getCellMark (handleMarkNot ⟨false, true⟩ (handleMarkNot ⟨false, true⟩ c2Grid 1 3) 2 3)
        3 3).primary = .empty ∧
    ¬(getCellMark (handleMarkNot ⟨false, true⟩ (handleMarkNot ⟨false, true⟩ c2Grid 1 3) 2 3)
        3 3).primary = .has := by
  decide

/-! ### C3 and C4: setup confirmation -/

/-- C3: owner confirmation.  For every owner card c, player 1's cell becomes
`has` and every other player's cell becomes `not` (numbers and bars cleared),
and every card of the catalog that is neither an owner card nor a public
card gets `not` in player 1's column. -/
theorem applyMarksForCards_owner_spec (allCardIds publicCards : List Nat)
    (g : Grid) (cards : List Nat) (c q c2 : Nat)
    (hc : c ∈ cards) (hq : q ∈ PLAYER_IDS)
    (hc2 : c2 ∈ allCardIds) (hnc : c2 ∉ cards) (hnp : c2 ∉ publicCards) :
    (q = 1 →
      getCellMark (applyMarksForCards allCardIds publicCards g cards true) c 1 =
        ⟨.has, [], []⟩) ∧
    (q ≠ 1 →
      getCellMark (applyMarksForCards allCardIds publicCards g cards true) c q =
        ⟨.not, [], []⟩) ∧
    getCellMark (applyMarksForCards allCardIds publicCards g cards true) c2 1 =
      ⟨.not, [], []⟩ := by
  have hrun : applyMarksForCards allCardIds publicCards g cards true =
      batchSetMarks g
        ((cards.flatMap (fun cid =>
            PLAYER_IDS.map (fun p => (cid, p, rowMark true p)))) ++
         ((allCardIds.filter (fun cid => decide (cid ∉ cards ∧ cid ∉ publicCards))).map
            (fun cid => (cid, 1, createMark .not [] [])))) := by
    unfold applyMarksForCards
    exact if_isEmpty_batch _ _
  have hcfilter : c ∉ allCardIds.filter (fun cid => decide (cid ∉ cards ∧ cid ∉ publicCards)) := by
    intro hmem
    have := (List.mem_filter.mp hmem).2
    rw [decide_eq_true_eq] at this
    exact this.1 hc
  have hc2filter : c2 ∈ allCardIds.filter (fun cid => decide (cid ∉ cards ∧ cid ∉ publicCards)) :=
    List.mem_filter.mpr ⟨hc2, by rw [decide_eq_true_eq]; exact ⟨hnc, hnp⟩⟩
  refine ⟨?_, ?_, ?_⟩
  · intro hq1
    subst hq1
    rw [hrun, getCellMark_batchSetMarks, lastWrite_append, lastWrite_map_cards]
    rw [if_neg (fun h => hcfilter h.1)]
    rw [lastWrite_flatMap_rows, if_pos ⟨hc, hq⟩]
    rfl
  · intro hq1
    rw [hrun, getCellMark_batchSetMarks, lastWrite_append, lastWrite_map_cards]
    rw [if_neg (fun h => hcfilter h.1)]
    rw [lastWrite_flatMap_rows, if_pos ⟨hc, hq⟩]
    have hmark : rowMark true q = ⟨.not, [], []⟩ := by
      unfold rowMark
      rw [if_pos rfl, if_neg hq1]
      rfl
    rw [hmark]
    rfl
  · rw [hrun, getCellMark_batchSetMarks, lastWrite_append, lastWrite_map_cards]
    rw [if_pos ⟨hc2filter, rfl⟩]
    rfl

/-- C3 witness: confirming owner cards `{1, 5}` (player 1 the owner) on the
empty grid, with public cards `{7, 8}` already confirmed, observed at
(card 1, column 2) and at the non-owner non-public card 2 in column 1. -/
theorem applyMarksForCards_owner_spec_witness :
    ((1 ∈ ([1, 5] : List Nat)) ∧ (2 ∈ PLAYER_IDS) ∧ (2 ∈ ALL_CARD_IDS) ∧
      (2 ∉ ([1, 5] : List Nat)) ∧ (2 ∉ ([7, 8] : List Nat))) ∧
    (((2 : Nat) = 1 →
      getCellMark (applyMarksForCards ALL_CARD_IDS [7, 8] [] [1, 5] true) 1 1 =
        ⟨.has, [], []⟩) ∧
    ((2 : Nat) ≠ 1 →
      getCellMark (applyMarksForCards ALL_CARD_IDS [7, 8] [] [1, 5] true) 1 2 =
        ⟨.not, [], []⟩) ∧
    getCellMark (applyMarksForCards ALL_CARD_IDS [7, 8] [] [1, 5] true) 2 1 =
      ⟨.not, [], []⟩) :=
  ⟨by decide,
   applyMarksForCards_owner_spec ALL_CARD_IDS [7, 8] [] [1, 5] 1 2 2
     (by decide) (by decide) (by decide) (by decide) (by decide)⟩

/-- C4: public confirmation overwrites every column of each confirmed
card's row to primary `not` with empty number and bar-color sets, whatever
was stored there before. -/
theorem applyMarksForCards_public_spec (allCardIds publicCards : List Nat)
    (g : Grid) (cards : List Nat) (c q : Nat)
    (hc : c ∈ cards) (hq : q ∈ PLAYER_IDS) :
    getCellMark (applyMarksForCards allCardIds publicCards g cards false) c q =
      ⟨.not, [], []⟩ := by
  have hrun : applyMarksForCards allCardIds publicCards g cards false =
      batchSetMarks g
        ((cards.flatMap (fun cid =>
            PLAYER_IDS.map (fun p => (cid, p, rowMark false p)))) ++ []) := by
    unfold applyMarksForCards
    exact if_isEmpty_batch _ _
  rw [hrun, getCellMark_batchSetMarks, lastWrite_append]
  simp only [lastWrite]
  rw [lastWrite_flatMap_rows, if_pos ⟨hc, hq⟩]
  rfl

/-- C4 witness: confirming public cards `{7, 8}` over a grid where
(card 7, player 2) carried number markers discards those numbers and leaves
the cell at `not`. -/
theorem applyMarksForCards_public_spec_witness :
    ((7 ∈ ([7, 8] : List Nat)) ∧ (2 ∈ PLAYER_IDS)) ∧
    getCellMark
        (applyMarksForCards ALL_CARD_IDS [] (setCellMark [] 7 2 (createMark .empty [1, 3] []))
          [7, 8] false) 7 2 =
      ⟨.not, [], []⟩ :=
  ⟨by decide,
   applyMarksForCards_public_spec ALL_CARD_IDS []
     (setCellMark [] 7 2 (createMark .empty [1, 3] [])) [7, 8] 7 2
     (by decide) (by decide)⟩

/-! ### C5: murder-item predicate -/

/-- C5: the murder-item flag holds iff the card is not a locked public or
owner card and every player column reads `not`; and since it is recomputed
from the grid, writing any mark whose primary is not `not` into any column
of such a card makes the next evaluation read false. -/
theorem isMurderItem_spec (publicCards ownerCards : List Nat) (g : Grid)
    (c q : Nat) (m : CellMark) (hq : q ∈ PLAYER_IDS) (hm : m.primary ≠ .not) :
    (isMurderItem publicCards ownerCards g c = true ↔
      (c ∉ publicCards ∧ c ∉ ownerCards ∧
        ∀ p ∈ PLAYER_IDS, (getCellMark g c p).primary = .not)) ∧
    isMurderItem publicCards ownerCards (setCellMark g c q m) c = false := by
  constructor
  · unfold isMurderItem
    simp [List.all_eq_true, not_or, and_assoc]
  · have hread : (getCellMark (setCellMark g c q m) c q).primary ≠ .not := by
      rw [getCellMark_setCellMark_self]
      cases he : isEmptyMark m
      · simpa [he] using hm
      · simp [he, EMPTY_MARK]
    apply Bool.eq_false_iff.mpr
    intro h
    unfold isMurderItem at h
    rw [Bool.and_eq_true] at h
    have hall := h.2
    rw [List.all_eq_true] at hall
    have hqmark := hall q hq
    rw [decide_eq_true_eq] at hqmark
    exact hread hqmark

/-- C5 witness: card 2 with all six columns `not`, not public (`{7}`) and
not owned (`{1}`), then column 4 rewritten to a `has` mark. -/
theorem isMurderItem_spec_witness :
    ((4 ∈ PLAYER_IDS) ∧ (createMark .has [] [] : CellMark).primary ≠ .not) ∧
    ((isMurderItem [7] [1] (batchSetMarks [] (PLAYER_IDS.map (fun p => (2, p, createMark .not [] [])))) 2 = true ↔
      ((2 : Nat) ∉ ([7] : List Nat) ∧ (2 : Nat) ∉ ([1] : List Nat) ∧
        ∀ p ∈ PLAYER_IDS,
          (getCellMark (batchSetMarks [] (PLAYER_IDS.map (fun p => (2, p, createMark .not [] [])))) 2 p).primary = .not)) ∧
    isMurderItem [7] [1]
        (setCellMark (batchSetMarks [] (PLAYER_IDS.map (fun p => (2, p, createMark .not [] [])))) 2 4
          (createMark .has [] [])) 2 = false) :=
  ⟨by decide,
   isMurderItem_spec [7] [1]
     (batchSetMarks [] (PLAYER_IDS.map (fun p => (2, p, createMark .not [] [])))) 2 4
     (createMark .has [] []) (by decide) (by decide)⟩

/-! ### C6: non-bars marks carry no bar-colors -/

/-- C6: every mark producible by the Mark Model whose primary is not `bars`
has an empty bar-color set, and `createMark` with any non-bars primary
clears whatever bar-color input it was given. -/
theorem producedMark_nonbars_no_barColors :
    (∀ m : CellMark, ProducedMark m → m.primary ≠ .bars → m.barColors = []) ∧
    (∀ (p : PrimaryMark) (ns bs : List Nat), p ≠ .bars →
      (createMark p ns bs).barColors = []) := by
  constructor
  · intro m hm
    induction hm with
    | create p ns bs =>
        intro h
        rw [createMark_primary] at h
        exact createMark_barColors_of_ne_bars _ _ _ h
    | primaryStep m p _ _ =>
        intro h
        unfold withPrimary at h ⊢
        rw [createMark_primary] at h
        exact createMark_barColors_of_ne_bars _ _ _ h
    | toggleNumberStep m n _ _ =>
        intro h
        unfold withToggledNumber at h ⊢
        rw [createMark_primary] at h
        exact createMark_barColors_of_ne_bars _ _ _ h
    | toggleBarStep m cc _ _ =>
        intro h
        unfold withToggledBarColor at h ⊢
        by_cases hcol :
            (if cc ∈ m.barColors then m.barColors.erase cc else m.barColors ++ [cc]) = []
        · rw [if_pos hcol] at h ⊢
          exact createMark_barColors_of_ne_bars _ _ _ (fun hpb => PrimaryMark.noConfusion hpb)
        · rw [if_neg hcol] at h ⊢
          rw [createMark_primary] at h
          exact absurd rfl h
    | removeNumberStep m n _ ih =>
        intro h
        unfold withoutNumber at h ⊢
        by_cases hn : n ∈ m.numbers
        · rw [if_pos hn] at h ⊢
          rw [createMark_primary] at h
          exact createMark_barColors_of_ne_bars _ _ _ h
        · rw [if_neg hn] at h ⊢
          exact ih h
    | removeAllStep m _ ih =>
        intro h
        unfold withoutAllNumbers at h ⊢
        by_cases hn : m.numbers = []
        · rw [if_pos hn] at h ⊢
          exact ih h
        · rw [if_neg hn] at h ⊢
          rw [createMark_primary] at h
          exact createMark_barColors_of_ne_bars _ _ _ h
  · intro p ns bs h
    exact createMark_barColors_of_ne_bars p ns bs h

/-- C6 witness: the constructor applied with primary `has` and the non-empty
bar-color input `[2]` yields a produced mark with empty bar-colors. -/
theorem producedMark_nonbars_no_barColors_witness :
    (ProducedMark (createMark .has [1] [2]) ∧
      (createMark .has [1] [2]).primary ≠ .bars) ∧
    (createMark .has [1] [2]).barColors = [] :=
  ⟨⟨ProducedMark.create .has [1] [2], by decide⟩,
   producedMark_nonbars_no_barColors.1 (createMark .has [1] [2])
     (ProducedMark.create .has [1] [2]) (by decide)⟩

/-! ### C7: the store never holds a canonical-empty entry -/

/-- The Grid Store invariant: no stored entry is canonically empty. -/
def StoreInv (g : Grid) : Prop :=
  ∀ e ∈ g, ¬(e.2.primary = .empty ∧ e.2.numbers = [])

theorem mem_mapSet (g : Grid) (k : Cell) (m : CellMark) :
    ∀ e ∈ mapSet g k m, e = (k, m) ∨ e ∈ g := by
  induction g with
  | nil =>
      intro e he
      simp [mapSet] at he
      exact Or.inl he
  | cons e0 rest ih =>
      intro e he
      obtain ⟨k', m'⟩ := e0
      by_cases hk : k' = k
      · rw [mapSet, if_pos hk] at he
        rcases List.mem_cons.mp he with h | h
        · exact Or.inl h
        · exact Or.inr (List.mem_cons_of_mem _ h)
      · rw [mapSet, if_neg hk] at he
        rcases List.mem_cons.mp he with h | h
        · exact Or.inr (h ▸ List.mem_cons_self _ _)
        · rcases ih e h with h2 | h2
          · exact Or.inl h2
          · exact Or.inr (List.mem_cons_of_mem _ h2)

theorem storeInv_setCellMark (g : Grid) (c p : Nat) (m : CellMark)
    (h : StoreInv g) : StoreInv (setCellMark g c p m) := by
  unfold setCellMark
  cases he : isEmptyMark m
  · simp only [Bool.false_eq_true, if_false]
    intro e hmem
    rcases mem_mapSet g (c, p) m e hmem with h2 | h2
    · subst h2
      intro hcontra
      rw [← isEmptyMark_eq_true_iff] at hcontra
      rw [he] at hcontra
      exact Bool.noConfusion hcontra
    · exact h e h2
  · simp only [if_true]
    intro e hmem
    exact h e (List.mem_filter.mp hmem).1

theorem storeInv_batchSetMarks (g : Grid) (us : List Update)
    (h : StoreInv g) : StoreInv (batchSetMarks g us) := by
  induction us generalizing g with
  | nil => exact h
  | cons u us ih =>
      exact ih (setCellMark g u.1 u.2.1 u.2.2) (storeInv_setCellMark g u.1 u.2.1 u.2.2 h)

theorem storeInv_removeNumberFromColumn (g : Grid) (playerId num : Nat)
    (h : StoreInv g) : StoreInv (removeNumberFromColumn g playerId num) := by
  intro e hmem
  unfold removeNumberFromColumn at hmem
  rw [List.mem_filterMap] at hmem
  obtain ⟨a, ha, hfa⟩ := hmem
  by_cases hcond : a.1.2 = playerId ∧ num ∈ a.2.numbers
  · rw [if_pos hcond] at hfa
    by_cases hemp : isEmptyMark (withoutNumber a.2 num) = true
    · rw [if_pos hemp] at hfa
      exact Option.noConfusion hfa
    · rw [if_neg hemp] at hfa
      have he : e = (a.1, withoutNumber a.2 num) := (Option.some.injEq _ _).mp hfa.symm
      subst he
      intro hcontra
      apply hemp
      rw [isEmptyMark_eq_true_iff]
      exact hcontra
  · rw [if_neg hcond] at hfa
    have he : e = a := (Option.some.injEq _ _).mp hfa.symm
    subst he
    exact h _ ha

theorem storeInv_applyGridOp (g : Grid) (op : GridOp) (h : StoreInv g) :
    StoreInv (applyGridOp g op) := by
  cases op with
  | setMark c p m => exact storeInv_setCellMark g c p m h
  | batch us => exact storeInv_batchSetMarks g us h
  | removeNumCol p n => exact storeInv_removeNumberFromColumn g p n h
  | reset => intro e he; exact absurd he (List.not_mem_nil e)

/-- C7: in every grid reachable by Grid Store operations from the empty
store, no stored entry is the canonical empty mark; writing the canonical
empty mark removes the cell's entry; and reading an absent cell returns the
canonical empty mark. -/
theorem gridStore_no_canonical_empty :
    (∀ (ops : List GridOp), ∀ e ∈ runOps ops,
        ¬(e.2.primary = .empty ∧ e.2.numbers = [])) ∧
    (∀ (g : Grid) (c p : Nat),
        mapLookup (setCellMark g c p EMPTY_MARK) (c, p) = none) ∧
    (∀ (g : Grid) (c p : Nat),
        mapLookup g (c, p) = none → getCellMark g c p = EMPTY_MARK) := by
  refine ⟨?_, ?_, ?_⟩
  · intro ops
    have hrec : ∀ (l : List GridOp) (g : Grid), StoreInv g →
        StoreInv (l.foldl applyGridOp g) := by
      intro l
      induction l with
      | nil => intro g hg; exact hg
      | cons op l ih =>
          intro g hg
          exact ih (applyGridOp g op) (storeInv_applyGridOp g op hg)
    exact hrec ops [] (fun e he => absurd he (List.not_mem_nil e))
  · intro g c p
    unfold setCellMark
    rw [if_pos (show isEmptyMark EMPTY_MARK = true from rfl)]
    exact mapLookup_mapDelete_self g (c, p)
  · intro g c p h
    unfold getCellMark
    rw [h]
    rfl

/-- C7 witness: a concrete operation sequence (a point write, a batch write,
a column number-removal that empties a cell, a canonical-empty point write)
with its surviving entry, plus the two read facts at concrete cells. -/
theorem gridStore_no_canonical_empty_witness :
    (((1, 2), (⟨.has, [3], []⟩ : CellMark)) ∈
        runOps [.setMark 1 2 (createMark .has [3] []),
                .batch [(3, 4, createMark .empty [2] [])],
                .removeNumCol 4 2,
                .setMark 5 6 EMPTY_MARK] ∧
      ¬((⟨.has, [3], []⟩ : CellMark).primary = .empty ∧
        (⟨.has, [3], []⟩ : CellMark).numbers = [])) ∧
    mapLookup (setCellMark [] 5 6 EMPTY_MARK) (5, 6) = none ∧
    (mapLookup ([] : Grid) (9, 1) = none ∧ getCellMark [] 9 1 = EMPTY_MARK) :=
  ⟨⟨by decide,
    gridStore_no_canonical_empty.1
      [.setMark 1 2 (createMark .has [3] []),
       .batch [(3, 4, createMark .empty [2] [])],
       .removeNumCol 4 2,
       .setMark 5 6 EMPTY_MARK]
      ((1, 2), (⟨.has, [3], []⟩ : CellMark)) (by decide)⟩,
   gridStore_no_canonical_empty.2.1 [] 5 6,
   ⟨by decide, gridStore_no_canonical_empty.2.2 [] 9 1 (by decide)⟩⟩

/-! ### C8: constraint resolver -/

/-- C8: `isConstraintRequired` returns true iff the constraint's dependency
list is non-empty and some listed rule is enabled; with the current (empty)
dependency table it returns false for every constraint and configuration. -/
theorem isConstraintRequired_spec :
    (∀ (cid : ConstraintId) (cfg : AutoRulesConfig),
        (isConstraintRequired cid cfg = true ↔
          (CONSTRAINT_DEPENDENCIES cid ≠ [] ∧
           ∃ r ∈ CONSTRAINT_DEPENDENCIES cid, ruleEnabled cfg r = true))) ∧
    (∀ (cid : ConstraintId) (cfg : AutoRulesConfig),
        isConstraintRequired cid cfg = false) := by
  constructor
  · intro cid cfg
    unfold isConstraintRequired
    by_cases h : (CONSTRAINT_DEPENDENCIES cid).length = 0
    · rw [if_pos h]
      simp [List.length_eq_zero.mp h]
    · rw [if_neg h]
      have hne : CONSTRAINT_DEPENDENCIES cid ≠ [] := by
        intro hnil
        exact h (by rw [hnil]; rfl)
      simp [List.any_eq_true, hne]
  · intro cid cfg
    cases cid <;> rfl

/-! ### C9: the two auto-rule flags -/

/-- C9: the auto-rule configuration has the two flags `rowElimination` and
`lastMaybeDeduction`, the default configuration turns both off, and the
mark-not handler runs the last-maybe deduction exactly when the
`lastMaybeDeduction` flag is set (with the flag off it performs only the
point write). -/
theorem autoRules_two_flags_default_off :
    DEFAULT_AUTO_RULES.rowElimination = false ∧
    DEFAULT_AUTO_RULES.lastMaybeDeduction = false ∧
    (∀ (re : Bool) (g : Grid) (c p : Nat),
        handleMarkNot ⟨re, false⟩ g c p = setPrimary g c p .not) ∧
    (∀ (re : Bool) (g : Grid) (c p : Nat),
        handleMarkNot ⟨re, true⟩ g c p =
          applyLastMaybeDeduction re g (setPrimary g c p .not) c p) :=
  ⟨rfl, rfl, fun _ _ _ _ => rfl, fun _ _ _ _ => rfl⟩

/-! ### C10: toggling a bar color twice on a settled cell -/

/-- C10: on a mark whose primary is `has` or `not` (hence, by normalization,
with no bar-colors), toggling bar color c yields primary `bars` with
bar-color set `[c]` and the numbers unchanged; toggling the same color again
yields primary `empty` with the numbers still unchanged — the settled
primary is erased, not restored. -/
theorem withToggledBarColor_double_toggle (m : CellMark) (c : Nat)
    (_hp : m.primary = .has ∨ m.primary = .not) (hb : m.barColors = []) :
    (withToggledBarColor m c).primary = .bars ∧
    (withToggledBarColor m c).barColors = [c] ∧
    (withToggledBarColor m c).numbers = m.numbers ∧
    (withToggledBarColor (withToggledBarColor m c) c).primary = .empty ∧
    (withToggledBarColor (withToggledBarColor m c) c).numbers = m.numbers := by
  have h1 : withToggledBarColor m c = ⟨.bars, m.numbers, [c]⟩ := by
    unfold withToggledBarColor
    rw [hb]
    simp [createMark]
  have h2 : withToggledBarColor (⟨.bars, m.numbers, [c]⟩ : CellMark) c =
      createMark .empty m.numbers [] := by
    unfold withToggledBarColor
    simp [List.erase_cons_head]
  refine ⟨by rw [h1], by rw [h1], by rw [h1], ?_, ?_⟩
  · rw [h1, h2, createMark_primary]
  · rw [h1, h2, createMark_numbers]

/-- C10 witness: the settled mark with primary `has` and number 3, toggling
bar color 2 twice. -/
theorem withToggledBarColor_double_toggle_witness :
    (((createMark .has [3] []).primary = .has ∨
        (createMark .has [3] []).primary = .not) ∧
      (createMark .has [3] []).barColors = []) ∧
    ((withToggledBarColor (createMark .has [3] []) 2).primary = .bars ∧
     (withToggledBarColor (createMark .has [3] []) 2).barColors = [2] ∧
     (withToggledBarColor (createMark .has [3] []) 2).numbers = (createMark .has [3] []).numbers ∧
     (withToggledBarColor (withToggledBarColor (createMark .has [3] []) 2) 2).primary = .empty ∧
     (withToggledBarColor (withToggledBarColor (createMark .has [3] []) 2) 2).numbers =
       (createMark .has [3] []).numbers) :=
  ⟨⟨by decide, by decide⟩,
   withToggledBarColor_double_toggle (createMark .has [3] []) 2 (by decide) (by decide)⟩

end ClueSheet
